import Mathlib

/-!
Verification of the event-resolution engine of the `ha-svitlo` integration
(`custom_components/svitlo/coordinator/yasno.py`).

Embedding conventions:
* Instants and durations are integers counting seconds (the Python code works
  with timezone-aware `datetime` values and `timedelta.total_seconds()`; all
  arithmetic relevant here is on whole seconds).
* `None` in Python becomes `Option.none`; a Python `ValueError` becomes
  `Except.error`.
* The coordinator's stateful helpers (`_get_group_data_or_none` and the
  cache fields) are embedded as explicit state-passing functions.
* The data-holding classes `PlannedOutageEvent`, `PlannedOutageEventType`,
  `ConnectivityState` (models.py) and the API object (`api/yasno.py`) are not
  part of the sources under verification; they are modelled from the spec
  where marked.
-/

namespace Svitlo

/-- Modelled from the spec: the two event kinds of `PlannedOutageEventType`
(models.py is not among the given sources).  The string values `"Definite"`
and `"Emergency"` are visible in the sources: the sensor platform declares
`options=["Definite", "Emergency", "NotPlanned"]` for the `next_outage_type`
sensor, and the coordinator stores `event.event_type.value` in the calendar
event's `uid`/`description`. -/
inductive PlannedOutageEventType where
  | DEFINITE
  | EMERGENCY
deriving DecidableEq, Repr

/-- The `.value` attribute of the Python enum. -/
def PlannedOutageEventType.value : PlannedOutageEventType → String
  | .DEFINITE => "Definite"
  | .EMERGENCY => "Emergency"

/-- Modelled from the spec: the `ConnectivityState` enum
(`{NORMAL, PLANNED_OUTAGE, EMERGENCY}`, models.py is not among the given
sources). -/
inductive ConnectivityState where
  | STATE_NORMAL
  | STATE_PLANNED_OUTAGE
  | STATE_EMERGENCY
deriving DecidableEq, Repr

/-- Modelled from the spec: an `OutageEvent` as produced by the Interval
Store — an interval `[start, end)` on the timeline with an immutable kind
tag (models.py is not among the given sources).  Fields keep the Python
names; `end` is a Lean keyword, hence `endT`. -/
structure PlannedOutageEvent where
  start : Int
  endT : Int
  event_type : PlannedOutageEventType
deriving DecidableEq, Repr

/-- The `CalendarEvent` values the coordinator builds in
`_get_calendar_event`: `uid` and `description` both hold
`event.event_type.value` (the localized `summary` plays no role in the
verified logic and is omitted). -/
structure CalendarEvent where
  start : Int
  endT : Int
  uid : String
  description : String
deriving DecidableEq, Repr

/-- Modelled from the spec: a `GroupSnapshot` — the wholesale-replaceable
fetched schedule for one (region, provider, group) tuple, carrying an
`updatedOn` timestamp (the raw dict shape lives in `api/yasno.py`, not among
the given sources; only its presence or absence matters to the verified
facts). -/
structure GroupSnapshot where
  updatedOn : Int
deriving DecidableEq, Repr

/-- `TIMEFRAME_TO_CHECK = datetime.timedelta(hours=24)`, in seconds. -/
def TIMEFRAME_TO_CHECK : Int := 24 * 3600

/-- `_get_calendar_event` on a non-None event: the transformation of a
store event into a `CalendarEvent` (summary omitted, see `CalendarEvent`). -/
def calendarOf (e : PlannedOutageEvent) : CalendarEvent :=
  { start := e.start
    endT := e.endT
    uid := e.event_type.value
    description := e.event_type.value }

/-- `_get_calendar_event`: `None` maps to `None`, otherwise `calendarOf`. -/
def getCalendarEvent : Option PlannedOutageEvent → Option CalendarEvent
  | none => none
  | some e => some (calendarOf e)

/-- Modelled from the spec: the Interval Store's
`eventsBetween(start, end)` (`api.get_events` in `api/yasno.py`, not among
the given sources): all stored events whose interval `[start, end)`
intersects the query window `[startDate, endDate)`; the spec notes the store
does not guarantee order across multi-day spans, so insertion order is kept
and the resolver sorts. -/
def apiGetEvents (stored : List PlannedOutageEvent) (startDate endDate : Int) :
    List PlannedOutageEvent :=
  stored.filter fun e => decide (e.start < endDate) && decide (startDate < e.endT)

/-- The ascending-`start` ordering used to sort stored events. -/
def eventByStart (x y : PlannedOutageEvent) : Prop := x.start ≤ y.start

instance : DecidableRel eventByStart := fun x y =>
  inferInstanceAs (Decidable (x.start ≤ y.start))

instance : IsTotal PlannedOutageEvent eventByStart :=
  ⟨fun x y => Int.le_total x.start y.start⟩

instance : IsTrans PlannedOutageEvent eventByStart :=
  ⟨fun _ _ _ h h' => le_trans h h'⟩

/-- The ascending-`start` ordering used to sort calendar events (the
`key=lambda _: _.start` of `_get_next_event_of_type`). -/
def byStart (x y : CalendarEvent) : Prop := x.start ≤ y.start

instance : DecidableRel byStart := fun x y =>
  inferInstanceAs (Decidable (x.start ≤ y.start))

instance : IsTotal CalendarEvent byStart :=
  ⟨fun x y => Int.le_total x.start y.start⟩

instance : IsTrans CalendarEvent byStart :=
  ⟨fun _ _ _ h h' => le_trans h h'⟩

/-- Modelled from the spec: the Interval Store's `eventAt(instant)`
(`api.get_current_event` in `api/yasno.py`, not among the given sources):
the event whose `[start, end)` contains the instant; on malformed
overlapping data the earliest-starting event wins, ties broken by
first-inserted order (a stable sort by `start`, then first match). -/
def apiGetCurrentEvent (stored : List PlannedOutageEvent) (t : Int) :
    Option PlannedOutageEvent :=
  (stored.insertionSort eventByStart).find? fun e =>
    decide (e.start ≤ t) && decide (t < e.endT)

/-- `get_events_between`: calendar renderings of the store's window query. -/
def getEventsBetween (stored : List PlannedOutageEvent)
    (startDate endDate : Int) : List CalendarEvent :=
  (apiGetEvents stored startDate endDate).map calendarOf

/-- `get_event_at(at)`: the calendar rendering of the store's event at a
given time. -/
def getEventAt (stored : List PlannedOutageEvent) (t : Int) :
    Option CalendarEvent :=
  getCalendarEvent (apiGetCurrentEvent stored t)

/-- `get_current_event()` is `get_event_at(now)`; `now` is passed
explicitly in the embedding. -/
def getCurrentEvent (stored : List PlannedOutageEvent) (now : Int) :
    Option CalendarEvent :=
  getEventAt stored now

/-- `_event_to_state`: `None ↦ NORMAL`; `uid = "Definite" ↦ PLANNED_OUTAGE`;
`uid = "Emergency" ↦ EMERGENCY`; any other uid is logged as a warning and
mapped to `NORMAL`. -/
def eventToState : Option CalendarEvent → ConnectivityState
  | none => ConnectivityState.STATE_NORMAL
  | some ev =>
    if ev.uid = PlannedOutageEventType.DEFINITE.value then
      ConnectivityState.STATE_PLANNED_OUTAGE
    else if ev.uid = PlannedOutageEventType.EMERGENCY.value then
      ConnectivityState.STATE_EMERGENCY
    else
      ConnectivityState.STATE_NORMAL

/-- `current_state`: `_event_to_state(get_current_event())`. -/
def currentState (stored : List PlannedOutageEvent) (now : Int) :
    ConnectivityState :=
  eventToState (getCurrentEvent stored now)

/-- The loop body predicate of `_get_next_event_of_type`: the event maps to
the requested state and starts strictly after `now`. -/
def nextEventMatches (stateType : ConnectivityState) (now : Int)
    (ev : CalendarEvent) : Bool :=
  decide (eventToState (some ev) = stateType) && decide (now < ev.start)

/-- `_get_next_event_of_type(state_type)`: gather the events intersecting
`[now, now + 24h)`, sort them ascending by `start` (Python's `sorted` is
stable; `List.insertionSort` with `≤` on `start` is the same stable sort),
and return the first whose state matches and whose `start` is strictly after
`now`. -/
def getNextEventOfType (stored : List PlannedOutageEvent)
    (stateType : ConnectivityState) (now : Int) : Option CalendarEvent :=
  ((getEventsBetween stored now (now + TIMEFRAME_TO_CHECK)).insertionSort
      byStart).find?
    (nextEventMatches stateType now)

/-- Whether a stored event survives the whole pipeline of
`_get_next_event_of_type`: it intersects the window `[now, now + 24h)`
(the store filter) and its calendar rendering satisfies the loop predicate
(matching state and `start` strictly after `now`). -/
def storedEventMatches (stateType : ConnectivityState) (now : Int)
    (e : PlannedOutageEvent) : Bool :=
  (decide (e.start < now + TIMEFRAME_TO_CHECK) && decide (now < e.endT)) &&
    nextEventMatches stateType now (calendarOf e)

/-- `_has_outages_planned()`: false without group data, otherwise whether a
next planned-outage event exists.  `groupData` stands for the value
`_get_group_data_or_none()` yields during the call (Python treats a `None`
result as falsy). -/
def hasOutagesPlanned (stored : List PlannedOutageEvent)
    (groupData : Option GroupSnapshot) (now : Int) : Bool :=
  match groupData with
  | none => false
  | some _ =>
    (getNextEventOfType stored ConnectivityState.STATE_PLANNED_OUTAGE
      now).isSome

/-- Python's `int(x)` on a quotient of whole seconds by 60: truncation
toward zero, i.e. `Int.tdiv`. -/
def wholeMinutes (seconds : Int) : Int := seconds.tdiv 60

/-- `next_planned_outage_duration`: `None` without group data; `0` when no
outage is planned; otherwise `int((end - start).total_seconds() / 60)` of
the next planned event. -/
def nextPlannedOutageDuration (stored : List PlannedOutageEvent)
    (groupData : Option GroupSnapshot) (now : Int) : Option Int :=
  match groupData with
  | none => none
  | some _ =>
    if hasOutagesPlanned stored groupData now then
      match getNextEventOfType stored
          ConnectivityState.STATE_PLANNED_OUTAGE now with
      | some ev => some (wholeMinutes (ev.endT - ev.start))
      | none => none
    else
      some 0

/-- `next_outage_type`: `None` without group data; the next planned event's
`uid` when one exists; `"NotPlanned"` otherwise. -/
def nextOutageType (stored : List PlannedOutageEvent)
    (groupData : Option GroupSnapshot) (now : Int) : Option String :=
  match groupData with
  | none => none
  | some _ =>
    match getNextEventOfType stored
        ConnectivityState.STATE_PLANNED_OUTAGE now with
    | some ev => some ev.uid
    | none => some "NotPlanned"

/-- The `options` list the sensor platform declares for the
`next_outage_type` sensor (sensor.py). -/
def nextOutageTypeSensorOptions : List String :=
  ["Definite", "Emergency", "NotPlanned"]

/-- `_get_localized_less_than_minute` falls back to this English phrase when
no translation is available; the embedding uses the fallback (the translation
table is host glue). -/
def lessThanMinuteText : String := "less than a minute"

/-- `_is_time_delta_positive(delta)`: `delta.total_seconds() > 0`. -/
def isTimeDeltaPositive (deltaSeconds : Int) : Bool :=
  decide (0 < deltaSeconds)

/-- `_format_time_delta(delta)`: non-positive deltas yield the localized
"less than a minute" phrase; otherwise split the whole seconds into days /
hours / minutes, emit `"{days}д" "{hours}ч"` when there are days, `"{hours}ч"`
when only hours, and `"{minutes}м"` when minutes are non-zero or days and
hours are both zero; join with spaces, falling back to the phrase when no
part was emitted. -/
def formatTimeDelta (deltaSeconds : Int) : String :=
  if deltaSeconds ≤ 0 then
    lessThanMinuteText
  else
    let totalSeconds : Nat := deltaSeconds.toNat
    let days : Nat := totalSeconds / (24 * 3600)
    let remaining : Nat := totalSeconds % (24 * 3600)
    let hours : Nat := remaining / 3600
    let minutes : Nat := remaining % 3600 / 60
    let parts : List String :=
      (if 0 < days then [s!"{days}д", s!"{hours}ч"]
       else if 0 < hours then [s!"{hours}ч"]
       else []) ++
      (if 0 < minutes ∨ (days = 0 ∧ hours = 0) then [s!"{minutes}м"]
       else [])
    if parts.isEmpty then lessThanMinuteText
    else String.intercalate " " parts

/-- `time_until_outage`: `None` when no outage is planned; `None` when the
current event's state is `STATE_PLANNED_OUTAGE`; otherwise the formatted
delta to the next planned outage's start, `None` when that event is absent
or the delta is not positive. -/
def timeUntilOutage (stored : List PlannedOutageEvent)
    (groupData : Option GroupSnapshot) (now : Int) : Option String :=
  if hasOutagesPlanned stored groupData now then
    if eventToState (getCurrentEvent stored now) =
        ConnectivityState.STATE_PLANNED_OUTAGE then
      none
    else
      match getNextEventOfType stored
          ConnectivityState.STATE_PLANNED_OUTAGE now with
      | none => none
      | some nextOutage =>
        if isTimeDeltaPositive (nextOutage.start - now) then
          some (formatTimeDelta (nextOutage.start - now))
        else none
  else
    none

/-- The `connectivity_time` local of `time_until_connectivity`: the current
event's end when the current state is `STATE_PLANNED_OUTAGE`, otherwise the
next planned outage's end (None when the respective event is absent). -/
def connectivityTarget (stored : List PlannedOutageEvent) (now : Int) :
    Option Int :=
  if eventToState (getCurrentEvent stored now) =
      ConnectivityState.STATE_PLANNED_OUTAGE then
    match getCurrentEvent stored now with
    | some ev => some ev.endT
    | none => none
  else
    match getNextEventOfType stored
        ConnectivityState.STATE_PLANNED_OUTAGE now with
    | some nxt => some nxt.endT
    | none => none

/-- `time_until_connectivity`: `None` when no outage is planned; when the
current state is `STATE_PLANNED_OUTAGE` the target is the current event's
end, otherwise the next planned outage's end; `None` when no target exists
or the delta is not positive, else the formatted delta. -/
def timeUntilConnectivity (stored : List PlannedOutageEvent)
    (groupData : Option GroupSnapshot) (now : Int) : Option String :=
  if hasOutagesPlanned stored groupData now then
    match connectivityTarget stored now with
    | none => none
    | some target =>
      if isTimeDeltaPositive (target - now) then
        some (formatTimeDelta (target - now))
      else none
  else
    none

/-- The cache duration of `_get_group_data_or_none`:
`min(60, update_interval.total_seconds() / 2)` in seconds, where the update
interval is `updateIntervalMinutes` minutes (so half of it is exactly
`30 * updateIntervalMinutes` seconds). -/
def cacheDuration (updateIntervalMinutes : Nat) : Int :=
  min 60 (30 * (updateIntervalMinutes : Int))

/-- The mutable cache fields of the coordinator:
`_cached_group_data` and `_group_data_cache_time`.  Note that Python caches
a `None` fetch result as `_cached_group_data = None`, which is
indistinguishable from "no cache": the freshness test requires
`_cached_group_data is not None`. -/
structure GroupDataCache where
  cachedGroupData : Option GroupSnapshot
  groupDataCacheTime : Option Int
deriving DecidableEq, Repr

/-- The cache state right after `__init__` (both fields `None`). -/
def initialCache : GroupDataCache := ⟨none, none⟩

/-- `_invalidate_group_data_cache` (also run by `_async_update_data` after
every successful fetch): both fields reset to `None`. -/
def invalidateGroupDataCache (_cache : GroupDataCache) : GroupDataCache :=
  ⟨none, none⟩

/-- `_get_group_data_or_none`: serve the cached value when it is non-None
and younger than the cache duration; otherwise query the store
(`api._get_group_data()`, whose current reply is the `storeData` argument),
record the reply and the current time, and return the reply.  Returns the
yielded value together with the updated cache state. -/
def getGroupDataOrNone (cache : GroupDataCache)
    (storeData : Option GroupSnapshot) (now : Int)
    (updateIntervalMinutes : Nat) :
    Option GroupSnapshot × GroupDataCache :=
  match cache.cachedGroupData, cache.groupDataCacheTime with
  | some d, some t =>
    if now - t < cacheDuration updateIntervalMinutes then
      (some d, cache)
    else
      (storeData, ⟨storeData, some now⟩)
  | _, _ => (storeData, ⟨storeData, some now⟩)

/-- Python truthiness of an optional configuration string: `None` and the
empty string are falsy. -/
def optStrFalsy : Option String → Bool
  | none => true
  | some s => s.isEmpty

/-- The configuration triple the constructor keeps when validation
succeeds. -/
structure CoordinatorConfig where
  region : String
  provider : String
  group : String
deriving DecidableEq, Repr

/-- The validation part of `YasnoCoordinator.__init__`: each of region,
provider and group is read from the options with a fallback to the entry
data (modelled as the already-resolved optional values); a falsy value
raises `ValueError` with the corresponding message, checked in the order
region, provider, group. -/
def initCoordinator (region provider group : Option String) :
    Except String CoordinatorConfig :=
  if optStrFalsy region then
    Except.error "Region configuration is required"
  else if optStrFalsy provider then
    Except.error "Provider configuration is required"
  else if optStrFalsy group then
    Except.error "Group configuration is required"
  else
    Except.ok
      { region := region.getD ""
        provider := provider.getD ""
        group := group.getD "" }

/-! ### Helper lemmas -/

theorem eventToState_eq_planned_iff (ev : CalendarEvent) :
    eventToState (some ev) = ConnectivityState.STATE_PLANNED_OUTAGE ↔
      ev.uid = "Definite" := by
  simp only [eventToState, PlannedOutageEventType.value]
  split
  · simp_all
  · split <;> simp_all

theorem nextEventMatches_true {stateType : ConnectivityState} {now : Int}
    {ev : CalendarEvent} (h : nextEventMatches stateType now ev = true) :
    eventToState (some ev) = stateType ∧ now < ev.start := by
  simpa [nextEventMatches] using h

theorem getNextEventOfType_start_gt {stored : List PlannedOutageEvent}
    {stateType : ConnectivityState} {now : Int} {ev : CalendarEvent}
    (h : getNextEventOfType stored stateType now = some ev) :
    now < ev.start :=
  (nextEventMatches_true (List.find?_some h)).2

theorem getNextEventOfType_state {stored : List PlannedOutageEvent}
    {stateType : ConnectivityState} {now : Int} {ev : CalendarEvent}
    (h : getNextEventOfType stored stateType now = some ev) :
    eventToState (some ev) = stateType :=
  (nextEventMatches_true (List.find?_some h)).1

theorem hasOutagesPlanned_some {stored : List PlannedOutageEvent}
    {g : GroupSnapshot} {now : Int} :
    hasOutagesPlanned stored (some g) now =
      (getNextEventOfType stored ConnectivityState.STATE_PLANNED_OUTAGE
        now).isSome := rfl

/-! ### Claim theorems -/

/-- C3 (failing input): `_format_time_delta` on a positive duration of 40
seconds — strictly under one minute — yields `"0м"`, not the localized
"less than a minute" phrase that the claim (and the function's own
docstring) promises; the neighbouring cases of the claim do hold:
90 seconds renders as only a minutes component and 25h30m renders all
three components. -/
theorem C3_format_under_minute_eval :
    formatTimeDelta 40 = "0м" ∧
    "0м" ≠ lessThanMinuteText ∧
    formatTimeDelta 90 = "1м" ∧
    formatTimeDelta (25 * 3600 + 30 * 60) = "1д 1ч 30м" :=
  ⟨by decide, by decide, by decide, by decide⟩

/-- C4: the state mapping is complete — no event yields `NORMAL`, the
`Definite` kind yields `PLANNED_OUTAGE`, the `Emergency` kind yields
`EMERGENCY`, any unknown uid yields `NORMAL` (a warning, never an error:
`eventToState` and hence `current_state` are total and always produce one
of the three defined states). -/
theorem C4_state_mapping :
    eventToState none = ConnectivityState.STATE_NORMAL ∧
    (∀ ev : CalendarEvent, ev.uid = PlannedOutageEventType.DEFINITE.value →
      eventToState (some ev) = ConnectivityState.STATE_PLANNED_OUTAGE) ∧
    (∀ ev : CalendarEvent, ev.uid = PlannedOutageEventType.EMERGENCY.value →
      eventToState (some ev) = ConnectivityState.STATE_EMERGENCY) ∧
    (∀ ev : CalendarEvent, ev.uid ≠ PlannedOutageEventType.DEFINITE.value →
      ev.uid ≠ PlannedOutageEventType.EMERGENCY.value →
      eventToState (some ev) = ConnectivityState.STATE_NORMAL) ∧
    (∀ (stored : List PlannedOutageEvent) (now : Int),
      currentState stored now = ConnectivityState.STATE_NORMAL ∨
      currentState stored now = ConnectivityState.STATE_PLANNED_OUTAGE ∨
      currentState stored now = ConnectivityState.STATE_EMERGENCY) := by
  refine ⟨rfl, ?_, ?_, ?_, ?_⟩
  · intro ev h
    simp [eventToState, h]
  · intro ev h
    simp [eventToState, h, PlannedOutageEventType.value]
  · intro ev h1 h2
    simp [eventToState, h1, h2]
  · intro stored now
    cases h : currentState stored now <;> simp

/-- Witness for C4 at concrete events of each uid shape. -/
theorem C4_state_mapping_witness :
    eventToState (some ⟨0, 10, "Definite", "Definite"⟩) =
      ConnectivityState.STATE_PLANNED_OUTAGE ∧
    eventToState (some ⟨0, 10, "Emergency", "Emergency"⟩) =
      ConnectivityState.STATE_EMERGENCY ∧
    eventToState (some ⟨0, 10, "Mystery", "Mystery"⟩) =
      ConnectivityState.STATE_NORMAL :=
  ⟨C4_state_mapping.2.1 _ rfl,
   C4_state_mapping.2.2.1 _ rfl,
   C4_state_mapping.2.2.2.1 _ (by decide) (by decide)⟩

/-- C9: the constructor validation fails with a `ValueError` exactly when
one of region, provider, group is unset (absent or empty). -/
theorem C9_config_validation (region provider group : Option String) :
    (∃ msg, initCoordinator region provider group = Except.error msg) ↔
      (optStrFalsy region || optStrFalsy provider || optStrFalsy group)
        = true := by
  unfold initCoordinator
  split
  · next h => simp_all
  · split
    · next h => simp_all
    · split
      · next h => simp_all
      · simp_all

/-- C10: `next_outage_type` only ever yields `None`, `"NotPlanned"` or
`"Definite"` — never `"Emergency"` — although the sensor platform declares
`"Emergency"` among the sensor's options. -/
theorem C10_next_outage_type_values (stored : List PlannedOutageEvent)
    (groupData : Option GroupSnapshot) (now : Int) :
    (nextOutageType stored groupData now = none ∨
     nextOutageType stored groupData now = some "NotPlanned" ∨
     nextOutageType stored groupData now = some "Definite") ∧
    nextOutageType stored groupData now ≠ some "Emergency" ∧
    "Emergency" ∈ nextOutageTypeSensorOptions := by
  have hval : nextOutageType stored groupData now = none ∨
      nextOutageType stored groupData now = some "NotPlanned" ∨
      nextOutageType stored groupData now = some "Definite" := by
    cases groupData with
    | none => exact Or.inl rfl
    | some g =>
      cases h : getNextEventOfType stored
          ConnectivityState.STATE_PLANNED_OUTAGE now with
      | none =>
        refine Or.inr (Or.inl ?_)
        simp [nextOutageType, h]
      | some ev =>
        refine Or.inr (Or.inr ?_)
        have huid : ev.uid = "Definite" :=
          (eventToState_eq_planned_iff ev).mp (getNextEventOfType_state h)
        simp [nextOutageType, h, huid]
  refine ⟨hval, ?_, by decide⟩
  rcases hval with h | h | h <;> simp [h]

/-- C6: neither countdown fact ever surfaces a zero or negative delta as a
string — each either returns `None` or the rendering of a strictly
positive delta. -/
theorem C6_nonpositive_deltas_are_none (stored : List PlannedOutageEvent)
    (groupData : Option GroupSnapshot) (now : Int) :
    (timeUntilOutage stored groupData now = none ∨
      ∃ d : Int, 0 < d ∧
        timeUntilOutage stored groupData now = some (formatTimeDelta d)) ∧
    (timeUntilConnectivity stored groupData now = none ∨
      ∃ d : Int, 0 < d ∧
        timeUntilConnectivity stored groupData now
          = some (formatTimeDelta d)) := by
  constructor
  · by_cases h : hasOutagesPlanned stored groupData now
    · by_cases hst : eventToState (getCurrentEvent stored now) =
          ConnectivityState.STATE_PLANNED_OUTAGE
      · left
        simp [timeUntilOutage, h, hst]
      · cases hnext : getNextEventOfType stored
            ConnectivityState.STATE_PLANNED_OUTAGE now with
        | none =>
          left
          simp [timeUntilOutage, h, hst, hnext]
        | some ev =>
          by_cases hd : isTimeDeltaPositive (ev.start - now) = true
          · right
            refine ⟨ev.start - now, ?_, ?_⟩
            · simpa [isTimeDeltaPositive] using hd
            · simp [timeUntilOutage, h, hst, hnext, hd]
          · left
            simp [timeUntilOutage, h, hst, hnext, hd]
    · left
      simp [timeUntilOutage, h]
  · by_cases h : hasOutagesPlanned stored groupData now
    · cases htgt : connectivityTarget stored now with
      | none =>
        left
        simp [timeUntilConnectivity, h, htgt]
      | some target =>
        by_cases hd : isTimeDeltaPositive (target - now) = true
        · right
          refine ⟨target - now, ?_, ?_⟩
          · simpa [isTimeDeltaPositive] using hd
          · simp [timeUntilConnectivity, h, htgt, hd]
        · left
          simp [timeUntilConnectivity, h, htgt, hd]
    · left
      simp [timeUntilConnectivity, h]

/-- Truncated whole minutes are positive exactly for durations of at least
one minute. -/
theorem wholeMinutes_pos_iff (d : Int) : 0 < wholeMinutes d ↔ 60 ≤ d := by
  unfold wholeMinutes
  rcases d with n | n
  · rw [show Int.tdiv (Int.ofNat n) 60 = Int.ofNat (n / 60) from rfl,
      Int.ofNat_eq_natCast, Int.ofNat_eq_natCast]
    have h60 : (60 : Nat) ≠ 0 := by decide
    constructor
    · intro h
      have h' : 0 < n / 60 := by exact_mod_cast h
      exact_mod_cast (Nat.div_pos_iff h60).mp h'
    · intro h
      have h' : 60 ≤ n := by exact_mod_cast h
      exact_mod_cast (Nat.div_pos_iff h60).mpr h'
  · rw [show Int.tdiv (Int.negSucc n) 60 = -Int.ofNat (n.succ / 60) from rfl]
    constructor
    · intro h
      have hge : (0 : Int) ≤ Int.ofNat (n.succ / 60) := Int.ofNat_nonneg _
      omega
    · intro h
      have := Int.negSucc_lt_zero n
      omega

/-- C1 (counterexample to the claim as stated): a loaded snapshot with a
single planned event of 30 seconds starting 10 minutes from now — a planned
outage event with `start` strictly after `now` inside the 24h horizon does
exist, yet `next_planned_outage_duration` returns `0`, not a positive
integer; so `0` does not mean "no outage found". -/
theorem C1_duration_counterexample :
    nextPlannedOutageDuration [⟨600, 630, .DEFINITE⟩]
        (some ⟨0⟩) 0 = some 0 ∧
    getNextEventOfType [⟨600, 630, .DEFINITE⟩]
        ConnectivityState.STATE_PLANNED_OUTAGE 0
      = some ⟨600, 630, "Definite", "Definite"⟩ := by
  constructor
  · decide
  · decide

/-- C1 (amended): `next_planned_outage_duration` is `None` iff no group
data is loaded; with data it is `0` when no planned event with `start`
strictly after `now` lies in the 24h horizon, and otherwise the next
event's `(end - start)` in whole minutes truncated toward zero — a value
that is positive exactly when the event lasts at least one minute (so a
sub-minute event also yields `0`). -/
theorem C1_duration_three_valued (stored : List PlannedOutageEvent)
    (groupData : Option GroupSnapshot) (now : Int) :
    (nextPlannedOutageDuration stored groupData now = none ↔
      groupData = none) ∧
    (groupData ≠ none →
      getNextEventOfType stored ConnectivityState.STATE_PLANNED_OUTAGE now
          = none →
      nextPlannedOutageDuration stored groupData now = some 0) ∧
    (∀ ev : CalendarEvent, groupData ≠ none →
      getNextEventOfType stored ConnectivityState.STATE_PLANNED_OUTAGE now
          = some ev →
      nextPlannedOutageDuration stored groupData now
          = some (wholeMinutes (ev.endT - ev.start)) ∧
        (0 < wholeMinutes (ev.endT - ev.start) ↔ 60 ≤ ev.endT - ev.start)) := by
  refine ⟨?_, ?_, ?_⟩
  · cases groupData with
    | none => simp [nextPlannedOutageDuration]
    | some g =>
      simp only [iff_false, reduceCtorEq]
      cases hnext : getNextEventOfType stored
          ConnectivityState.STATE_PLANNED_OUTAGE now with
      | none =>
        simp [nextPlannedOutageDuration, hasOutagesPlanned, hnext]
      | some ev =>
        simp [nextPlannedOutageDuration, hasOutagesPlanned, hnext]
  · intro hgd hnext
    cases groupData with
    | none => exact absurd rfl hgd
    | some g =>
      simp [nextPlannedOutageDuration, hasOutagesPlanned, hnext]
  · intro ev hgd hnext
    cases groupData with
    | none => exact absurd rfl hgd
    | some g =>
      exact ⟨by simp [nextPlannedOutageDuration, hasOutagesPlanned, hnext],
        wholeMinutes_pos_iff _⟩

/-- Witness for C1 (amended) at concrete inputs: empty store with a loaded
snapshot yields `0`; no snapshot yields `None`; a 90-minute event yields
`90` (a positive count). -/
theorem C1_duration_three_valued_witness :
    nextPlannedOutageDuration [] (some ⟨0⟩) 0 = some 0 ∧
    nextPlannedOutageDuration [] none 0 = none ∧
    nextPlannedOutageDuration [⟨600, 6000, .DEFINITE⟩] (some ⟨0⟩) 0
      = some 90 :=
  ⟨(C1_duration_three_valued [] (some ⟨0⟩) 0).2.1 (by decide) (by decide),
   (C1_duration_three_valued [] none 0).1.mpr rfl,
   by
    have := (C1_duration_three_valued [⟨600, 6000, .DEFINITE⟩]
        (some ⟨0⟩) 0).2.2 ⟨600, 6000, "Definite", "Definite"⟩
      (by decide) (by decide)
    simpa using this.1⟩

/-- C7 (counterexample to the claim as stated): a `get` whose store reply
is `None` records the time but leaves no usable cache entry, so the next
`get` — 10 seconds later, well within the 60-second TTL of the default
60-minute refresh interval — does not return the last computed value
(`None`); it re-queries the store and returns the store's new reply. -/
theorem C7_cache_counterexample :
    getGroupDataOrNone initialCache none 0 60 = (none, ⟨none, some 0⟩) ∧
    ((10 : Int) - 0 < cacheDuration 60) ∧
    (getGroupDataOrNone ⟨none, some 0⟩ (some ⟨5⟩) 10 60).1 = some ⟨5⟩ := by
  refine ⟨rfl, by decide, rfl⟩

/-- C7 (amended): the TTL is `min(60 s, half the refresh interval)`; a
`get` within TTL of a computation that stored a non-None value returns that
value without consulting the store (result and cache state are independent
of the store's current reply); a `get` once TTL has elapsed, or with no
usable cache entry — as after invalidation, which runs on every successful
data update, or after a `None` store reply — queries the store, records the
reply and the current time, and returns the reply. -/
theorem C7_cache_behaviour :
    (∀ m : Nat, cacheDuration m = min 60 ((60 * (m : Int)) / 2)) ∧
    (∀ (d : GroupSnapshot) (t now : Int) (m : Nat)
        (store : Option GroupSnapshot),
      now - t < cacheDuration m →
      getGroupDataOrNone ⟨some d, some t⟩ store now m
        = (some d, ⟨some d, some t⟩)) ∧
    (∀ (d : GroupSnapshot) (t now : Int) (m : Nat)
        (store : Option GroupSnapshot),
      ¬ now - t < cacheDuration m →
      getGroupDataOrNone ⟨some d, some t⟩ store now m
        = (store, ⟨store, some now⟩)) ∧
    (∀ (cache : GroupDataCache) (store : Option GroupSnapshot)
        (now : Int) (m : Nat),
      getGroupDataOrNone (invalidateGroupDataCache cache) store now m
        = (store, ⟨store, some now⟩)) := by
  refine ⟨?_, ?_, ?_, ?_⟩
  · intro m
    unfold cacheDuration
    omega
  · intro d t now m store h
    simp [getGroupDataOrNone, h]
  · intro d t now m store h
    simp [getGroupDataOrNone, h]
  · intro cache store now m
    rfl

/-- Witness for C7 (amended): a fresh hit serves the cache, a stale entry
re-queries and re-records. -/
theorem C7_cache_behaviour_witness :
    getGroupDataOrNone ⟨some ⟨1⟩, some 0⟩ none 10 60
      = (some ⟨1⟩, ⟨some ⟨1⟩, some 0⟩) ∧
    getGroupDataOrNone ⟨some ⟨1⟩, some 0⟩ none 100 60
      = (none, ⟨none, some 100⟩) :=
  ⟨C7_cache_behaviour.2.1 ⟨1⟩ 0 10 60 none (by decide),
   C7_cache_behaviour.2.2.1 ⟨1⟩ 0 100 60 none (by decide)⟩

/-- C5 (counterexample to the claim as stated): the household is currently
inside an EMERGENCY event (a non-NORMAL state), a planned outage starts two
hours later, and `time_until_outage` returns the formatted countdown
`"2ч"` rather than the `None` the claim requires for any current outage. -/
theorem C5_time_until_outage_counterexample :
    eventToState (getCurrentEvent
        [⟨-3600, 3600, .EMERGENCY⟩, ⟨7200, 10800, .DEFINITE⟩] 0)
      = ConnectivityState.STATE_EMERGENCY ∧
    timeUntilOutage [⟨-3600, 3600, .EMERGENCY⟩, ⟨7200, 10800, .DEFINITE⟩]
        (some ⟨0⟩) 0 = some "2ч" := by
  constructor
  · decide
  · decide

/-- C5 (amended): `time_until_outage` is `None` when no outage is planned
or when the current event maps specifically to `STATE_PLANNED_OUTAGE`;
during an EMERGENCY event the countdown is still produced: whenever an
outage is planned and the current state is not `STATE_PLANNED_OUTAGE`, the
fact returns the formatted `start - now` of the next planned event, whose
start is strictly in the future. -/
theorem C5_time_until_outage_spec (stored : List PlannedOutageEvent)
    (groupData : Option GroupSnapshot) (now : Int) :
    (hasOutagesPlanned stored groupData now = false →
      timeUntilOutage stored groupData now = none) ∧
    (eventToState (getCurrentEvent stored now)
        = ConnectivityState.STATE_PLANNED_OUTAGE →
      timeUntilOutage stored groupData now = none) ∧
    (∀ ev : CalendarEvent,
      hasOutagesPlanned stored groupData now = true →
      eventToState (getCurrentEvent stored now)
        ≠ ConnectivityState.STATE_PLANNED_OUTAGE →
      getNextEventOfType stored ConnectivityState.STATE_PLANNED_OUTAGE now
        = some ev →
      now < ev.start ∧
        timeUntilOutage stored groupData now
          = some (formatTimeDelta (ev.start - now))) := by
  refine ⟨?_, ?_, ?_⟩
  · intro h
    simp [timeUntilOutage, h]
  · intro h
    by_cases hop : hasOutagesPlanned stored groupData now
    · simp [timeUntilOutage, hop, h]
    · simp [timeUntilOutage, hop]
  · intro ev hop hst hnext
    have hlt : now < ev.start := getNextEventOfType_start_gt hnext
    have hpos : isTimeDeltaPositive (ev.start - now) = true := by
      simp only [isTimeDeltaPositive, decide_eq_true_eq]
      omega
    exact ⟨hlt, by simp [timeUntilOutage, hop, hst, hnext, hpos]⟩

/-- Witness for C5 (amended) at the emergency scenario: the countdown is
produced while the state is EMERGENCY, and the two `None` cases at concrete
inputs. -/
theorem C5_time_until_outage_spec_witness :
    ((0 : Int) < 7200 ∧
      timeUntilOutage [⟨-3600, 3600, .EMERGENCY⟩, ⟨7200, 10800, .DEFINITE⟩]
          (some ⟨0⟩) 0 = some (formatTimeDelta (7200 - 0))) ∧
    timeUntilOutage [] none 0 = none ∧
    timeUntilOutage [⟨-3600, 3600, .DEFINITE⟩, ⟨7200, 10800, .DEFINITE⟩]
        (some ⟨0⟩) 0 = none :=
  ⟨(C5_time_until_outage_spec
      [⟨-3600, 3600, .EMERGENCY⟩, ⟨7200, 10800, .DEFINITE⟩] (some ⟨0⟩) 0).2.2
      ⟨7200, 10800, "Definite", "Definite"⟩ (by decide) (by decide)
      (by decide),
   (C5_time_until_outage_spec [] none 0).1 (by decide),
   (C5_time_until_outage_spec
      [⟨-3600, 3600, .DEFINITE⟩, ⟨7200, 10800, .DEFINITE⟩] (some ⟨0⟩) 0).2.1
      (by decide)⟩

/-- C2: a stored event whose interval `[start, end)` contains the query
instant `T` — and which is the only such event, per the snapshot's
no-overlap invariant — is what `get_event_at(T)` returns; and the next-event
search only ever returns events starting strictly after `T`, so it never
returns the spanning event. -/
theorem C2_current_vs_next (stored : List PlannedOutageEvent)
    (e : PlannedOutageEvent) (T : Int)
    (he : e ∈ stored) (hs : e.start ≤ T) (hendT : T < e.endT)
    (huniq : ∀ e' ∈ stored, e'.start ≤ T → T < e'.endT → e' = e) :
    getEventAt stored T = some (calendarOf e) ∧
    (∀ (st : ConnectivityState) (ev : CalendarEvent),
      getNextEventOfType stored st T = some ev → T < ev.start) ∧
    (∀ st : ConnectivityState,
      getNextEventOfType stored st T ≠ some (calendarOf e)) := by
  refine ⟨?_, ?_, ?_⟩
  · unfold getEventAt apiGetCurrentEvent
    have hpe : (decide (e.start ≤ T) && decide (T < e.endT)) = true := by
      simp [hs, hendT]
    have hmem : e ∈ stored.insertionSort eventByStart := by
      rw [List.mem_insertionSort]
      exact he
    cases hf : (stored.insertionSort eventByStart).find?
        (fun e' => decide (e'.start ≤ T) && decide (T < e'.endT)) with
    | none =>
      exact absurd hpe (List.find?_eq_none.mp hf e hmem)
    | some x =>
      have hpx := List.find?_some hf
      have hxmem : x ∈ stored := by
        have := List.mem_of_find?_eq_some hf
        rwa [List.mem_insertionSort] at this
      simp only [Bool.and_eq_true, decide_eq_true_eq] at hpx
      rw [huniq x hxmem hpx.1 hpx.2]
      rfl
  · intro st ev h
    exact getNextEventOfType_start_gt h
  · intro st hcontra
    have := getNextEventOfType_start_gt hcontra
    simp only [calendarOf] at this
    omega

/-- Witness for C2: an event spanning `[-1h, +1h]` around `T = 0` is
returned as current and is not the next planned event (a later one is). -/
theorem C2_current_vs_next_witness :
    getEventAt [⟨-3600, 3600, .DEFINITE⟩, ⟨7200, 10800, .DEFINITE⟩] 0
      = some (calendarOf ⟨-3600, 3600, .DEFINITE⟩) ∧
    getNextEventOfType [⟨-3600, 3600, .DEFINITE⟩, ⟨7200, 10800, .DEFINITE⟩]
        ConnectivityState.STATE_PLANNED_OUTAGE 0
      ≠ some (calendarOf ⟨-3600, 3600, .DEFINITE⟩) := by
  have h := C2_current_vs_next
    [⟨-3600, 3600, .DEFINITE⟩, ⟨7200, 10800, .DEFINITE⟩]
    ⟨-3600, 3600, .DEFINITE⟩ 0
    (by decide) (by decide) (by decide) (by decide)
  exact ⟨h.1, h.2.2 ConnectivityState.STATE_PLANNED_OUTAGE⟩

/-! ### Stability of the next-event search (C8) -/

/-- Inserting a match `b` into any list whose matches all start no earlier
than `b` puts `b` in front of every match: `find?` returns `b`. -/
theorem find?_orderedInsert_min (q : CalendarEvent → Bool)
    (b : CalendarEvent) (hq : q b = true) :
    ∀ M : List CalendarEvent,
      (∀ c ∈ M, q c = true → b.start ≤ c.start) →
      ((M.orderedInsert byStart b).find? q = some b) := by
  intro M
  induction M with
  | nil =>
    intro _
    simp only [List.orderedInsert]
    exact List.find?_cons_of_pos _ hq
  | cons x xs ih =>
    intro hmin
    by_cases hle : byStart b x
    · rw [List.orderedInsert_of_le byStart xs hle]
      exact List.find?_cons_of_pos _ hq
    · have hqx : q x = false := by
        cases hqx : q x with
        | false => rfl
        | true => exact absurd (hmin x (List.mem_cons_self x xs) hqx) hle
      rw [show (x :: xs).orderedInsert byStart b
            = x :: xs.orderedInsert byStart b from by
          simp [List.orderedInsert, hle]]
      rw [List.find?_cons_of_neg _ (by simp [hqx])]
      exact ih fun c hc hqc => hmin c (List.mem_cons_of_mem x hc) hqc

/-- Inserting an element `y` that is either no match or starts strictly
after the first match `b` of a sorted list does not change the first
match. -/
theorem find?_orderedInsert_keep (q : CalendarEvent → Bool)
    (y : CalendarEvent) :
    ∀ (M : List CalendarEvent) (b : CalendarEvent), M.Sorted byStart →
      M.find? q = some b → (q y = true → b.start < y.start) →
      ((M.orderedInsert byStart y).find? q = some b) := by
  intro M
  induction M with
  | nil =>
    intro b _ hf _
    simp at hf
  | cons x xs ih =>
    intro b hsort hf hy
    by_cases hle : byStart y x
    · rw [List.orderedInsert_of_le byStart xs hle]
      have hqy : q y = false := by
        cases hqy : q y with
        | false => rfl
        | true =>
          have hby := hy hqy
          have hbmem : b ∈ x :: xs := List.mem_of_find?_eq_some hf
          have hxb : x.start ≤ b.start := by
            rcases List.mem_cons.mp hbmem with h | h
            · rw [h]
            · exact List.rel_of_sorted_cons hsort b h
          have hyx : y.start ≤ x.start := hle
          omega
      rw [List.find?_cons_of_neg _ (by simp [hqy])]
      exact hf
    · rw [show (x :: xs).orderedInsert byStart y
            = x :: xs.orderedInsert byStart y from by
          simp [List.orderedInsert, hle]]
      cases hqx : q x with
      | true =>
        have hbx : b = x :=
          Option.some.inj (hf.symm.trans (List.find?_cons_of_pos _ hqx))
        rw [List.find?_cons_of_pos _ hqx, hbx]
      | false =>
        have hf' : xs.find? q = some b := by
          rwa [List.find?_cons_of_neg _ (by simp [hqx])] at hf
        rw [List.find?_cons_of_neg _ (by simp [hqx])]
        exact ih b hsort.of_cons hf' hy

/-- Stability of the sorted search: if `b` is a match of minimal start and
the first-placed one among the matches of that minimal start, then `find?`
after the stable insertion sort returns exactly `b`. -/
theorem find?_insertionSort_first (q : CalendarEvent → Bool)
    (b : CalendarEvent) (hq : q b = true) :
    ∀ L₁ L₂ : List CalendarEvent,
      (∀ c ∈ L₁ ++ b :: L₂, q c = true → b.start ≤ c.start) →
      (∀ c ∈ L₁, q c = true → b.start < c.start) →
      (((L₁ ++ b :: L₂).insertionSort byStart).find? q = some b) := by
  intro L₁
  induction L₁ with
  | nil =>
    intro L₂ hmin _
    rw [List.nil_append,
      show (b :: L₂).insertionSort byStart
        = (L₂.insertionSort byStart).orderedInsert byStart b from rfl]
    apply find?_orderedInsert_min q b hq
    intro c hc hqc
    have hcL : c ∈ L₂ := (List.mem_insertionSort byStart).mp hc
    exact hmin c (List.mem_cons_of_mem b hcL) hqc
  | cons y L₁' ih =>
    intro L₂ hmin hfirst
    rw [List.cons_append,
      show ((y :: (L₁' ++ b :: L₂)).insertionSort byStart)
        = ((L₁' ++ b :: L₂).insertionSort byStart).orderedInsert byStart y
        from rfl]
    exact find?_orderedInsert_keep q y _ b
      (List.sorted_insertionSort byStart _)
      (ih L₂ (fun c hc hqc => hmin c (List.mem_cons_of_mem y hc) hqc)
        (fun c hc hqc => hfirst c (List.mem_cons_of_mem y hc) hqc))
      (fun hqy => hfirst y (List.mem_cons_self y L₁') hqy)

/-- C8: the next-event search is a pure function of the stored sequence,
the state filter and the query time (repeated calls agree definitionally),
and its result is stable under equal starts: when the matching event `a` of
minimal start is placed before every other matching event of that same
start, the search returns exactly `a` — the first-inserted matching
event. -/
theorem C8_next_event_stable (stored : List PlannedOutageEvent)
    (st : ConnectivityState) (now : Int) (a : PlannedOutageEvent)
    (l₁ l₂ : List PlannedOutageEvent)
    (hsplit : stored = l₁ ++ a :: l₂)
    (ha : storedEventMatches st now a = true)
    (hmin : ∀ c ∈ stored, storedEventMatches st now c = true →
      a.start ≤ c.start)
    (hfirst : ∀ c ∈ l₁, storedEventMatches st now c = true →
      a.start < c.start) :
    getNextEventOfType stored st now = some (calendarOf a) := by
  subst hsplit
  have ha' := ha
  simp only [storedEventMatches, Bool.and_eq_true] at ha'
  obtain ⟨⟨hw1, hw2⟩, hqa⟩ := ha'
  have hwa : (fun e => decide (e.start < now + TIMEFRAME_TO_CHECK) &&
      decide (now < e.endT)) a = true := by
    simp only [Bool.and_eq_true]
    exact ⟨hw1, hw2⟩
  unfold getNextEventOfType getEventsBetween apiGetEvents
  have hlist : (l₁ ++ a :: l₂).filter
        (fun e => decide (e.start < now + TIMEFRAME_TO_CHECK) &&
          decide (now < e.endT))
      = l₁.filter (fun e => decide (e.start < now + TIMEFRAME_TO_CHECK) &&
          decide (now < e.endT)) ++
        a :: l₂.filter (fun e => decide (e.start < now + TIMEFRAME_TO_CHECK)
          && decide (now < e.endT)) := by
    simp [List.filter_append, List.filter_cons, hwa]
  rw [hlist, List.map_append, List.map_cons]
  apply find?_insertionSort_first (nextEventMatches st now) (calendarOf a)
    hqa
  · intro c hc hqc
    rcases List.mem_append.mp hc with h | h
    · obtain ⟨c', hc', rfl⟩ := List.mem_map.mp h
      obtain ⟨hcl, hw⟩ := List.mem_filter.mp hc'
      have hm : storedEventMatches st now c' = true := by
        simp only [storedEventMatches, Bool.and_eq_true]
        exact ⟨by simpa using hw, hqc⟩
      exact hmin c' (List.mem_append_left _ hcl) hm
    · rcases List.mem_cons.mp h with h | h
      · rw [h]
      · obtain ⟨c', hc', rfl⟩ := List.mem_map.mp h
        obtain ⟨hcl, hw⟩ := List.mem_filter.mp hc'
        have hm : storedEventMatches st now c' = true := by
          simp only [storedEventMatches, Bool.and_eq_true]
          exact ⟨by simpa using hw, hqc⟩
        exact hmin c'
          (List.mem_append_right _ (List.mem_cons_of_mem a hcl)) hm
  · intro c hc hqc
    obtain ⟨c', hc', rfl⟩ := List.mem_map.mp hc
    obtain ⟨hcl, hw⟩ := List.mem_filter.mp hc'
    have hm : storedEventMatches st now c' = true := by
      simp only [storedEventMatches, Bool.and_eq_true]
      exact ⟨by simpa using hw, hqc⟩
    exact hfirst c' hcl hm

/-- Witness for C8: two planned events sharing `start = 100`; the search
returns the first-inserted one (ending at 200), not the later-inserted one
(ending at 300). -/
theorem C8_next_event_stable_witness :
    getNextEventOfType [⟨100, 200, .DEFINITE⟩, ⟨100, 300, .DEFINITE⟩]
        ConnectivityState.STATE_PLANNED_OUTAGE 0
      = some (calendarOf ⟨100, 200, .DEFINITE⟩) :=
  C8_next_event_stable
    [⟨100, 200, .DEFINITE⟩, ⟨100, 300, .DEFINITE⟩]
    ConnectivityState.STATE_PLANNED_OUTAGE 0
    ⟨100, 200, .DEFINITE⟩ [] [⟨100, 300, .DEFINITE⟩]
    rfl (by decide) (by decide) (by decide)

end Svitlo
